import Mathlib

/-!
Shallow embedding of the delivery-with-durable-retry core of the
HttpRequester component (src/HttpRequester.js).

The external transport is modelled as an oracle: for each attempt number
the oracle yields the list of per-endpoint outcomes that the successive
axios calls of that attempt would produce (one entry per receiver URL, in
list order).  The ledger store is a list of rows of the http_attempts
table, and every observable side effect (HTTP call, sleep, ledger write)
is recorded in an event trace.
-/

namespace HttpRetryer

/-- An HTTP response as far as the requester inspects it (only status). -/
structure Resp where
  status : Nat
deriving DecidableEq, Repr

/-- The shape of an axios rejection: an optional response (carrying the
HTTP status) and an optional transport error code string. -/
structure JsError where
  response : Option Nat
  code : Option String
deriving DecidableEq, Repr

/-- The value stored as the error classification of a failed attempt:
mirrors the JS expression on line 182, whose result is a status number,
a code string, or null. -/
inductive ErrVal where
  | status (n : Nat)
  | code (s : String)
  | null
deriving DecidableEq, Repr

/-- Line 182 of HttpRequester.js:
the classification is the response status when a response exists,
otherwise the transport error code when it is truthy, otherwise null
(the empty string is falsy in JS, hence mapped to null). -/
def statusCodeOf (e : JsError) : ErrVal :=
  match e.response with
  | some s => ErrVal.status s
  | none =>
    match e.code with
    | some c => if c = "" then ErrVal.null else ErrVal.code c
    | none => ErrVal.null

/-- Modelled from the spec (section 4.2, step 3): the failure
classification is the HTTP status or the transport error code, else the
string "unknown".  Used only to compare the spec wording with the code. -/
def specStatusCodeOf (e : JsError) : ErrVal :=
  match e.response with
  | some s => ErrVal.status s
  | none =>
    match e.code with
    | some c => ErrVal.code c
    | none => ErrVal.code "unknown"

/-- One row of the http_attempts table. -/
structure Record where
  request_id : String
  attempt_number : Nat
  error : ErrVal
  payload : String
  abandoned : Bool
  hostname : String
deriving DecidableEq, Repr

/-- The ledger store: the rows of the http_attempts table, in insertion
order. -/
abbrev Store : Type := List Record

/-- Observable side effects of a run, in order of occurrence. -/
inductive Event where
  | attemptDispatch (attempt : Nat)
  | httpCall (endpointIdx : Nat)
  | sleep (ms : Nat)
  | insertRec (request_id : String) (attempt : Nat) (error : ErrVal) (abandoned : Bool)
  | abandonRec (request_id : String) (attempt : Nat) (error : ErrVal)
  | deleteRec (request_id : String)
  | resumeCall (request_id : String) (attempt : Nat)
deriving DecidableEq, Repr

/-- Requester configuration as the retry engine consumes it. -/
structure Config where
  maxAttempts : Nat
  hostname : String
deriving DecidableEq, Repr

/-- JS truthiness of an optional string (null and the empty string are
falsy). -/
def truthy : Option String → Bool
  | none => false
  | some s => s ≠ ""

/-- The transport oracle: attempt number to the per-endpoint outcomes the
axios calls of that attempt would yield. -/
def World : Type := Nat → List (Except JsError Resp)

/-- Whether a dispatch result is a failure (a thrown error). -/
def isFailure : Except JsError (Option Resp) → Bool
  | Except.error _ => true
  | Except.ok _ => false

/-- The endpoint loop of sendRequest (lines 146-164), starting at
endpoint index i: try each outcome in order, return the first success;
on a failing outcome rethrow only when it is the last endpoint.  An empty
list falls through the loop and returns undefined (modelled as ok none). -/
def sendRequestFrom (i : Nat) : List (Except JsError Resp) → List Event × Except JsError (Option Resp)
  | [] => ([], Except.ok none)
  | r :: rs =>
    match r, rs with
    | Except.ok resp, _ => ([Event.httpCall i], Except.ok (some resp))
    | Except.error e, [] => ([Event.httpCall i], Except.error e)
    | Except.error _, r2 :: rs2 =>
      let rest := sendRequestFrom (i + 1) (r2 :: rs2)
      (Event.httpCall i :: rest.1, rest.2)

/-- sendRequest (lines 146-164): the failover loop over the receiver
endpoints, from the first one. -/
def sendRequest (results : List (Except JsError Resp)) : List Event × Except JsError (Option Resp) :=
  sendRequestFrom 0 results

/-- insertAttemptRecord (lines 277-290): append a new row. -/
def insertAttemptRecord (cfg : Config) (request_id : String) (attempt : Nat)
    (error : ErrVal) (payload : String) (abandoned : Bool) (store : Store) :
    Store × List Event :=
  (store ++ [Record.mk request_id attempt error payload abandoned cfg.hostname],
   [Event.insertRec request_id attempt error abandoned])

/-- abandonAttemptRecord (lines 300-306): set abandoned, attempt_number
and error on every row whose request_id matches. -/
def abandonAttemptRecord (uniqueKey : String) (attempt : Nat) (error : ErrVal)
    (store : Store) : Store × List Event :=
  (store.map (fun r =>
     if r.request_id = uniqueKey then
       Record.mk r.request_id attempt error r.payload true r.hostname
     else r),
   [Event.abandonRec uniqueKey attempt error])

/-- deleteAttemptRecord (lines 313-321): delete every row whose
request_id matches, a no-op when the key is falsy. -/
def deleteAttemptRecord (uniqueKey : String) (store : Store) : Store × List Event :=
  if uniqueKey = "" then (store, [])
  else (store.filter (fun r => r.request_id ≠ uniqueKey), [Event.deleteRec uniqueKey])

/-- What a run can leave uncaught.  The only uncaught throw in the core
is the ReferenceError raised by the exhaustion branch of
retryHttpRequest (line 244), whose log template reads the undefined
identifier recordId. -/
inductive Thrown where
  | refErrorRecordId
deriving DecidableEq, Repr

/-- makeHttpRequest (lines 172-216), the deliver path.  genId is the
UUID that generateUUID would produce if called.  Returns the final
store, the event trace, and the uncaught throw if any. -/
def makeHttpRequest (cfg : Config) (world : World) (genId : String) (payload : String)
    (store : Store) (attempt : Nat) (uniqueKey : Option String) :
    Store × List Event × Option Thrown :=
  let dispatched := sendRequest (world attempt)
  let trace0 := Event.attemptDispatch attempt :: dispatched.1
  match dispatched.2 with
  | Except.ok _ =>
    if 1 < attempt ∧ truthy uniqueKey then
      let del := deleteAttemptRecord (uniqueKey.getD "") store
      (del.1, trace0 ++ del.2, none)
    else (store, trace0, none)
  | Except.error e =>
    let sc := statusCodeOf e
    let key := if truthy uniqueKey then uniqueKey.getD "" else genId
    if _h : attempt < cfg.maxAttempts then
      let ins := if attempt = 1 then insertAttemptRecord cfg key attempt sc payload false store
                 else (store, [])
      let rest := makeHttpRequest cfg world genId payload ins.1 (attempt + 1) (some key)
      (rest.1, trace0 ++ ins.2 ++ Event.sleep (2 ^ attempt * 1000) :: rest.2.1, rest.2.2)
    else
      if attempt = 1 then
        let ins := insertAttemptRecord cfg key attempt sc payload true store
        (ins.1, trace0 ++ ins.2, none)
      else
        let ab := abandonAttemptRecord key attempt sc store
        (ab.1, trace0 ++ ab.2, none)
  termination_by cfg.maxAttempts - attempt
  decreasing_by omega

/-- retryHttpRequest (lines 226-247), the resume path.  On success it
always deletes the record; when attempts are exhausted its log template
reads the undefined identifier recordId and a ReferenceError escapes. -/
def retryHttpRequest (cfg : Config) (world : World) (requestId : String) (payload : String)
    (store : Store) (attempt : Nat) : Store × List Event × Option Thrown :=
  let dispatched := sendRequest (world attempt)
  let trace0 := Event.attemptDispatch attempt :: dispatched.1
  match dispatched.2 with
  | Except.ok _ =>
    let del := deleteAttemptRecord requestId store
    (del.1, trace0 ++ del.2, none)
  | Except.error _ =>
    if _h : attempt < cfg.maxAttempts then
      let rest := retryHttpRequest cfg world requestId payload store (attempt + 1)
      (rest.1, trace0 ++ Event.sleep (2 ^ attempt * 1000) :: rest.2.1, rest.2.2)
    else
      (store, trace0, some Thrown.refErrorRecordId)
  termination_by cfg.maxAttempts - attempt
  decreasing_by omega

/-- The row loop of checkPendingRequests (lines 259-263): the fetched
rows are a snapshot; each row is resumed in order against the evolving
store; the surrounding try/catch stops the loop at the first uncaught
throw (the error is logged, not rethrown).  worlds gives each row index
its transport oracle. -/
def processRows (cfg : Config) (worlds : Nat → World) (idx : Nat) :
    List Record → Store → Store × List Event
  | [], store => (store, [])
  | row :: rest, store =>
    let res := retryHttpRequest cfg (worlds idx) row.request_id row.payload store row.attempt_number
    match res.2.2 with
    | some _ => (res.1, Event.resumeCall row.request_id row.attempt_number :: res.2.1)
    | none =>
      let thereafter := processRows cfg worlds (idx + 1) rest res.1
      (thereafter.1,
       Event.resumeCall row.request_id row.attempt_number :: res.2.1 ++ thereafter.2)

/-- checkPendingRequests (lines 252-268): SELECT the whole table (no
filter on abandoned), then resume each fetched row in order. -/
def checkPendingRequests (cfg : Config) (worlds : Nat → World) (store : Store) :
    Store × List Event :=
  processRows cfg worlds 0 store store

/-- startRequest (lines 328-335): run makeHttpRequest from attempt 1
with no key, catching anything it throws. -/
def startRequest (cfg : Config) (world : World) (genId : String) (payload : String)
    (store : Store) : Store × List Event × Option Thrown :=
  let res := makeHttpRequest cfg world genId payload store 1 none
  (res.1, res.2.1, none)

/-- JS numeric defaulting in the constructor (lines 98-102): a falsy
number (0 or absent) is replaced by the default. -/
def jsNumOr (v : Option Int) (d : Int) : Int :=
  match v with
  | none => d
  | some x => if x = 0 then d else x

/-- The effective requester configuration built by the constructor. -/
structure EffConfig where
  timeout : Int
  maxAttempts : Int
deriving DecidableEq, Repr

/-- Lines 98-102 of the constructor: timeout and maxAttempts fall back
to 5000 and 5 when falsy. -/
def mkRequesterConfig (timeout maxAttempts : Option Int) : EffConfig :=
  EffConfig.mk (jsNumOr timeout 5000) (jsNumOr maxAttempts 5)

end HttpRetryer

namespace HttpRetryer

theorem sendRequestFrom_events (rs : List (Except JsError Resp)) :
    ∀ i ev, ev ∈ (sendRequestFrom i rs).1 → ∃ j, ev = Event.httpCall j := by
  induction rs with
  | nil => intro i ev h; simp [sendRequestFrom] at h
  | cons r rest ih =>
    intro i ev h
    match r, rest with
    | Except.ok resp, _ =>
      simp [sendRequestFrom] at h
      exact ⟨i, h⟩
    | Except.error e, [] =>
      simp [sendRequestFrom] at h
      exact ⟨i, h⟩
    | Except.error e, r2 :: rs2 =>
      simp only [sendRequestFrom, List.mem_cons] at h
      rcases h with h | h
      · exact ⟨i, h⟩
      · exact ih (i + 1) ev h

theorem sendRequest_no_sleep (rs : List (Except JsError Resp)) (ms : Nat) :
    Event.sleep ms ∉ (sendRequest rs).1 := by
  intro hmem
  obtain ⟨j, hj⟩ := sendRequestFrom_events rs 0 (Event.sleep ms) hmem
  exact Event.noConfusion hj

theorem makeHttpRequest_ok (cfg : Config) (world : World) (genId payload : String)
    (store : Store) (attempt : Nat) (uniqueKey : Option String) (r : Option Resp)
    (hok : (sendRequest (world attempt)).2 = Except.ok r) :
    makeHttpRequest cfg world genId payload store attempt uniqueKey =
      if 1 < attempt ∧ truthy uniqueKey then
        ((deleteAttemptRecord (uniqueKey.getD "") store).1,
         (Event.attemptDispatch attempt :: (sendRequest (world attempt)).1) ++
           (deleteAttemptRecord (uniqueKey.getD "") store).2, none)
      else (store, Event.attemptDispatch attempt :: (sendRequest (world attempt)).1, none) := by
  rw [makeHttpRequest]
  simp only [hok]

end HttpRetryer

namespace HttpRetryer

theorem makeHttpRequest_fail_retry (cfg : Config) (world : World) (genId payload : String)
    (store : Store) (attempt : Nat) (uniqueKey : Option String) (e : JsError)
    (hf : (sendRequest (world attempt)).2 = Except.error e)
    (hlt : attempt < cfg.maxAttempts) :
    makeHttpRequest cfg world genId payload store attempt uniqueKey =
      (let key := if truthy uniqueKey then uniqueKey.getD "" else genId
       let ins := if attempt = 1 then
            insertAttemptRecord cfg key attempt (statusCodeOf e) payload false store
          else (store, [])
       let rest := makeHttpRequest cfg world genId payload ins.1 (attempt + 1) (some key)
       (rest.1,
        (Event.attemptDispatch attempt :: (sendRequest (world attempt)).1) ++
          ins.2 ++ Event.sleep (2 ^ attempt * 1000) :: rest.2.1,
        rest.2.2)) := by
  conv_lhs => rw [makeHttpRequest]
  simp only [hf, hlt, dif_pos]

theorem makeHttpRequest_fail_final (cfg : Config) (world : World) (genId payload : String)
    (store : Store) (attempt : Nat) (uniqueKey : Option String) (e : JsError)
    (hf : (sendRequest (world attempt)).2 = Except.error e)
    (hge : ¬ attempt < cfg.maxAttempts) :
    makeHttpRequest cfg world genId payload store attempt uniqueKey =
      (let key := if truthy uniqueKey then uniqueKey.getD "" else genId
       if attempt = 1 then
         let ins := insertAttemptRecord cfg key attempt (statusCodeOf e) payload true store
         (ins.1, (Event.attemptDispatch attempt :: (sendRequest (world attempt)).1) ++ ins.2, none)
       else
         let ab := abandonAttemptRecord key attempt (statusCodeOf e) store
         (ab.1, (Event.attemptDispatch attempt :: (sendRequest (world attempt)).1) ++ ab.2, none)) := by
  conv_lhs => rw [makeHttpRequest]
  simp only [hf, hge, dif_neg]
  rfl

theorem retryHttpRequest_ok (cfg : Config) (world : World) (requestId payload : String)
    (store : Store) (attempt : Nat) (r : Option Resp)
    (hok : (sendRequest (world attempt)).2 = Except.ok r) :
    retryHttpRequest cfg world requestId payload store attempt =
      ((deleteAttemptRecord requestId store).1,
       (Event.attemptDispatch attempt :: (sendRequest (world attempt)).1) ++
         (deleteAttemptRecord requestId store).2,
       none) := by
  rw [retryHttpRequest]
  simp only [hok]

theorem retryHttpRequest_fail_retry (cfg : Config) (world : World) (requestId payload : String)
    (store : Store) (attempt : Nat) (e : JsError)
    (hf : (sendRequest (world attempt)).2 = Except.error e)
    (hlt : attempt < cfg.maxAttempts) :
    retryHttpRequest cfg world requestId payload store attempt =
      (let rest := retryHttpRequest cfg world requestId payload store (attempt + 1)
       (rest.1,
        (Event.attemptDispatch attempt :: (sendRequest (world attempt)).1) ++
          Event.sleep (2 ^ attempt * 1000) :: rest.2.1,
        rest.2.2)) := by
  conv_lhs => rw [retryHttpRequest]
  simp only [hf, hlt, dif_pos]

theorem retryHttpRequest_fail_final (cfg : Config) (world : World) (requestId payload : String)
    (store : Store) (attempt : Nat) (e : JsError)
    (hf : (sendRequest (world attempt)).2 = Except.error e)
    (hge : ¬ attempt < cfg.maxAttempts) :
    retryHttpRequest cfg world requestId payload store attempt =
      (store, Event.attemptDispatch attempt :: (sendRequest (world attempt)).1,
       some Thrown.refErrorRecordId) := by
  rw [retryHttpRequest]
  simp only [hf, hge, dif_neg]
  rfl

end HttpRetryer

namespace HttpRetryer

/-- Event classifiers used to state trace properties. -/
def isInsertEvt : Event → Bool
  | Event.insertRec _ _ _ _ => true
  | _ => false

def isDeleteEvt : Event → Bool
  | Event.deleteRec _ => true
  | _ => false

def isResumeEvt : Event → Bool
  | Event.resumeCall _ _ => true
  | _ => false

theorem deleteAttemptRecord_events (key : String) (store : Store) (ev : Event)
    (h : ev ∈ (deleteAttemptRecord key store).2) : ev = Event.deleteRec key := by
  unfold deleteAttemptRecord at h
  by_cases hk : key = "" <;> simp [hk] at h
  exact h

theorem makeHttpRequest_no_throw (cfg : Config) (world : World) (genId payload : String) :
    ∀ k attempt store uniqueKey, cfg.maxAttempts - attempt ≤ k →
      (makeHttpRequest cfg world genId payload store attempt uniqueKey).2.2 = none := by
  intro k
  induction k with
  | zero =>
    intro a store uk hk
    cases hres : (sendRequest (world a)).2 with
    | ok r =>
      rw [makeHttpRequest_ok cfg world genId payload store a uk r hres]
      by_cases hc : 1 < a ∧ truthy uk = true <;> simp [hc]
    | error e =>
      have hge : ¬ a < cfg.maxAttempts := by omega
      rw [makeHttpRequest_fail_final cfg world genId payload store a uk e hres hge]
      by_cases h1 : a = 1 <;> simp [h1]
  | succ k ih =>
    intro a store uk hk
    cases hres : (sendRequest (world a)).2 with
    | ok r =>
      rw [makeHttpRequest_ok cfg world genId payload store a uk r hres]
      by_cases hc : 1 < a ∧ truthy uk = true <;> simp [hc]
    | error e =>
      by_cases hlt : a < cfg.maxAttempts
      · rw [makeHttpRequest_fail_retry cfg world genId payload store a uk e hres hlt]
        exact ih (a + 1) _ _ (by omega)
      · rw [makeHttpRequest_fail_final cfg world genId payload store a uk e hres hlt]
        by_cases h1 : a = 1 <;> simp [h1]

theorem makeHttpRequest_trace_head (cfg : Config) (world : World) (genId payload : String)
    (store : Store) (attempt : Nat) (uniqueKey : Option String) :
    ∃ t, (makeHttpRequest cfg world genId payload store attempt uniqueKey).2.1 =
      Event.attemptDispatch attempt :: t := by
  cases hres : (sendRequest (world attempt)).2 with
  | ok r =>
    rw [makeHttpRequest_ok cfg world genId payload store attempt uniqueKey r hres]
    by_cases hc : 1 < attempt ∧ truthy uniqueKey = true <;> simp [hc]
  | error e =>
    by_cases hlt : attempt < cfg.maxAttempts
    · rw [makeHttpRequest_fail_retry cfg world genId payload store attempt uniqueKey e hres hlt]
      simp
    · rw [makeHttpRequest_fail_final cfg world genId payload store attempt uniqueKey e hres hlt]
      by_cases h1 : attempt = 1 <;> simp [h1]

theorem retryHttpRequest_trace_head (cfg : Config) (world : World) (requestId payload : String)
    (store : Store) (attempt : Nat) :
    ∃ t, (retryHttpRequest cfg world requestId payload store attempt).2.1 =
      Event.attemptDispatch attempt :: t := by
  cases hres : (sendRequest (world attempt)).2 with
  | ok r =>
    rw [retryHttpRequest_ok cfg world requestId payload store attempt r hres]
    simp
  | error e =>
    by_cases hlt : attempt < cfg.maxAttempts
    · rw [retryHttpRequest_fail_retry cfg world requestId payload store attempt e hres hlt]
      simp
    · rw [retryHttpRequest_fail_final cfg world requestId payload store attempt e hres hlt]
      simp

/-- The kinds of events the resume path can emit, relative to its
starting attempt number: dispatch labels never drop below the start, and
the resume path never inserts, abandons or re-enters the recovery scan. -/
def retryEvtOk (a0 : Nat) : Event → Prop
  | Event.attemptDispatch m => a0 ≤ m
  | Event.httpCall _ => True
  | Event.sleep _ => True
  | Event.deleteRec _ => True
  | _ => False

theorem retryHttpRequest_events (cfg : Config) (world : World) (requestId payload : String) :
    ∀ k attempt store, cfg.maxAttempts - attempt ≤ k →
      ∀ ev ∈ (retryHttpRequest cfg world requestId payload store attempt).2.1,
        retryEvtOk attempt ev := by
  intro k
  induction k with
  | zero =>
    intro a store hk ev hev
    have hge : ¬ a < cfg.maxAttempts := by omega
    cases hres : (sendRequest (world a)).2 with
    | ok r =>
      rw [retryHttpRequest_ok cfg world requestId payload store a r hres] at hev
      simp only [List.cons_append, List.mem_cons, List.mem_append] at hev
      rcases hev with rfl | hev | hev
      · exact Nat.le_refl a
      · obtain ⟨j, rfl⟩ := sendRequestFrom_events (world a) 0 ev hev
        trivial
      · rw [deleteAttemptRecord_events requestId store ev hev]
        trivial
    | error e =>
      rw [retryHttpRequest_fail_final cfg world requestId payload store a e hres hge] at hev
      simp only [List.mem_cons] at hev
      rcases hev with rfl | hev
      · exact Nat.le_refl a
      · obtain ⟨j, rfl⟩ := sendRequestFrom_events (world a) 0 ev hev
        trivial
  | succ k ih =>
    intro a store hk ev hev
    cases hres : (sendRequest (world a)).2 with
    | ok r =>
      rw [retryHttpRequest_ok cfg world requestId payload store a r hres] at hev
      simp only [List.cons_append, List.mem_cons, List.mem_append] at hev
      rcases hev with rfl | hev | hev
      · exact Nat.le_refl a
      · obtain ⟨j, rfl⟩ := sendRequestFrom_events (world a) 0 ev hev
        trivial
      · rw [deleteAttemptRecord_events requestId store ev hev]
        trivial
    | error e =>
      by_cases hlt : a < cfg.maxAttempts
      · rw [retryHttpRequest_fail_retry cfg world requestId payload store a e hres hlt] at hev
        simp only [List.cons_append, List.mem_cons, List.mem_append] at hev
        rcases hev with rfl | hev | rfl | hev
        · exact Nat.le_refl a
        · obtain ⟨j, rfl⟩ := sendRequestFrom_events (world a) 0 ev hev
          trivial
        · trivial
        · have := ih (a + 1) store (by omega) ev hev
          cases ev <;> try trivial
          exact Nat.le_of_succ_le this
      · rw [retryHttpRequest_fail_final cfg world requestId payload store a e hres hlt] at hev
        simp only [List.mem_cons] at hev
        rcases hev with rfl | hev
        · exact Nat.le_refl a
        · obtain ⟨j, rfl⟩ := sendRequestFrom_events (world a) 0 ev hev
          trivial

end HttpRetryer

namespace HttpRetryer

theorem httpCall_shift (i k : Nat) :
    Event.httpCall i :: List.map (fun j => Event.httpCall (i + 1 + j)) (List.range k) =
    List.map (fun j => Event.httpCall (i + j)) (List.range (k + 1)) := by
  rw [List.range_succ_eq_map, List.map_cons, List.map_map]
  simp only [Nat.add_zero]
  have hfun : (fun j => Event.httpCall (i + 1 + j)) =
      ((fun j => Event.httpCall (i + j)) ∘ Nat.succ) := by
    funext j
    simp only [Function.comp_apply]
    congr 1
    omega
  rw [hfun]

theorem sendRequestFrom_first_ok (rs : List (Except JsError Resp)) :
    ∀ i k resp, rs.get? k = some (Except.ok resp) →
      (∀ j, j < k → ∃ e, rs.get? j = some (Except.error e)) →
      sendRequestFrom i rs =
        ((List.range (k + 1)).map (fun j => Event.httpCall (i + j)),
         Except.ok (some resp)) := by
  induction rs with
  | nil => intro i k resp hk hprev; simp at hk
  | cons r rest ih =>
    intro i k resp hk hprev
    cases k with
    | zero =>
      simp only [List.get?_cons_zero, Option.some.injEq] at hk
      subst hk
      simp [sendRequestFrom, List.range_succ]
    | succ k =>
      obtain ⟨e0, he0⟩ := hprev 0 (Nat.succ_pos k)
      simp only [List.get?_cons_zero, Option.some.injEq] at he0
      subst he0
      simp only [List.get?_cons_succ] at hk
      cases rest with
      | nil => simp at hk
      | cons r2 rs2 =>
        have hrec := ih (i + 1) k resp hk
          (fun j hj => by
            have := hprev (j + 1) (Nat.succ_lt_succ hj)
            simpa using this)
        simp only [sendRequestFrom, hrec]
        rw [← httpCall_shift i (k + 1)]

theorem sendRequestFrom_all_fail (rs : List (Except JsError Resp)) :
    ∀ i, rs ≠ [] → (∀ r ∈ rs, ∃ e, r = Except.error e) →
      ∃ e, rs.getLast? = some (Except.error e) ∧
        sendRequestFrom i rs =
          ((List.range rs.length).map (fun j => Event.httpCall (i + j)),
           Except.error e) := by
  induction rs with
  | nil => intro i hne hall; exact absurd rfl hne
  | cons r rest ih =>
    intro i hne hall
    obtain ⟨e0, he0⟩ := hall r (List.mem_cons_self _ _)
    subst he0
    cases rest with
    | nil =>
      refine ⟨e0, rfl, ?_⟩
      simp [sendRequestFrom, List.range_succ]
    | cons r2 rs2 =>
      obtain ⟨e, hlast, hrec⟩ := ih (i + 1) (by simp)
        (fun r hr => hall r (List.mem_cons_of_mem _ hr))
      refine ⟨e, ?_, ?_⟩
      · rw [List.getLast?_cons_cons]
        exact hlast
      · have hstep : sendRequestFrom i (Except.error e0 :: r2 :: rs2) =
            (Event.httpCall i :: (sendRequestFrom (i + 1) (r2 :: rs2)).1,
             (sendRequestFrom (i + 1) (r2 :: rs2)).2) := rfl
        rw [hstep, hrec]
        simp only [List.length_cons]
        conv_rhs => rw [← httpCall_shift]

end HttpRetryer

namespace HttpRetryer

theorem map_httpCall_zero (k : Nat) :
    List.map (fun j => Event.httpCall (0 + j)) (List.range k) =
      List.map Event.httpCall (List.range k) := by
  have hfun : (fun j => Event.httpCall (0 + j)) = Event.httpCall := by
    funext j
    simp
  rw [hfun]

/-- Claim C3: for every payload and non-empty endpoint list, a single
dispatch tries the endpoints strictly in list order with no delay
between them, returns immediately on the first endpoint whose transport
call completes without error, and, when every endpoint fails, raises
exactly the last endpoint's failure. -/
theorem claim_C3_failover (results : List (Except JsError Resp)) (hne : results ≠ []) :
    (∀ ms, Event.sleep ms ∉ (sendRequest results).1) ∧
    (∀ k resp, results.get? k = some (Except.ok resp) →
      (∀ j, j < k → ∃ e, results.get? j = some (Except.error e)) →
      sendRequest results =
        ((List.range (k + 1)).map Event.httpCall, Except.ok (some resp))) ∧
    ((∀ r ∈ results, ∃ e, r = Except.error e) →
      ∃ e, results.getLast? = some (Except.error e) ∧
        sendRequest results =
          ((List.range results.length).map Event.httpCall, Except.error e)) := by
  refine ⟨sendRequest_no_sleep results, ?_, ?_⟩
  · intro k resp hk hprev
    have h := sendRequestFrom_first_ok results 0 k resp hk hprev
    rw [map_httpCall_zero] at h
    exact h
  · intro hall
    obtain ⟨e, hlast, h⟩ := sendRequestFrom_all_fail results 0 hne hall
    rw [map_httpCall_zero] at h
    exact ⟨e, hlast, h⟩

/-- Witness for claim C3: with endpoints A (failing) and B (succeeding),
dispatch calls A then B and returns B's success. -/
theorem claim_C3_failover_witness :
    sendRequest [Except.error (JsError.mk none (some "ECONNREFUSED")),
                 Except.ok (Resp.mk 200)] =
      ([Event.httpCall 0, Event.httpCall 1], Except.ok (some (Resp.mk 200))) := by
  have h := (claim_C3_failover
      [Except.error (JsError.mk none (some "ECONNREFUSED")), Except.ok (Resp.mk 200)]
      (by simp)).2.1 1 (Resp.mk 200) rfl
      (fun j hj => by
        have hj0 : j = 0 := by omega
        subst hj0
        exact ⟨JsError.mk none (some "ECONNREFUSED"), rfl⟩)
  have hr : (List.range 2).map Event.httpCall = [Event.httpCall 0, Event.httpCall 1] := rfl
  rw [h, hr]

/-- Claim C8: the fire-and-forget entry point never raises to its
caller: the deliver path leaves no uncaught throw from attempt 1, and
startRequest swallows anything that would escape. -/
theorem claim_C8_never_raises (cfg : Config) (world : World) (genId payload : String)
    (store : Store) :
    (makeHttpRequest cfg world genId payload store 1 none).2.2 = none ∧
    (startRequest cfg world genId payload store).2.2 = none :=
  ⟨makeHttpRequest_no_throw cfg world genId payload cfg.maxAttempts 1 store none (by omega),
   rfl⟩

/-- Counterexample for claim C9: for a failure with neither a response
nor a transport code, the recorded classification is null, not the
string "unknown" that the claim states. -/
theorem claim_C9_cex :
    statusCodeOf (JsError.mk none none) = ErrVal.null ∧
    specStatusCodeOf (JsError.mk none none) = ErrVal.code "unknown" ∧
    ErrVal.null ≠ ErrVal.code "unknown" :=
  ⟨rfl, rfl, fun h => ErrVal.noConfusion h⟩

/-- Claim C9 (amended): the recorded classification is the HTTP response
status when a response exists, otherwise the transport error code when
that code is truthy, and otherwise null. -/
theorem claim_C9_amended (e : JsError) :
    (∀ s, e.response = some s → statusCodeOf e = ErrVal.status s) ∧
    (∀ c, e.response = none → e.code = some c → c ≠ "" → statusCodeOf e = ErrVal.code c) ∧
    (e.response = none → (e.code = none ∨ e.code = some "") → statusCodeOf e = ErrVal.null) := by
  refine ⟨fun s hs => ?_, fun c h0 hc hcne => ?_, fun h0 hc => ?_⟩
  · simp [statusCodeOf, hs]
  · simp [statusCodeOf, h0, hc, hcne]
  · rcases hc with h | h <;> simp [statusCodeOf, h0, h]

/-- Witness for claim C9 (amended), at three concrete failures. -/
theorem claim_C9_amended_witness :
    statusCodeOf (JsError.mk (some 503) none) = ErrVal.status 503 ∧
    statusCodeOf (JsError.mk none (some "ECONNABORTED")) = ErrVal.code "ECONNABORTED" ∧
    statusCodeOf (JsError.mk none (some "")) = ErrVal.null :=
  ⟨(claim_C9_amended (JsError.mk (some 503) none)).1 503 rfl,
   (claim_C9_amended (JsError.mk none (some "ECONNABORTED"))).2.1 "ECONNABORTED" rfl rfl
     (by simp),
   (claim_C9_amended (JsError.mk none (some ""))).2.2 rfl (Or.inr rfl)⟩

/-- Claim C10: falsy constructor options are replaced by defaults: a
timeout of 0 or absent becomes 5000, a maxAttempts of 0 or absent
becomes 5, and neither effective value can ever be 0. -/
theorem claim_C10_defaults :
    (∀ m, (mkRequesterConfig (some 0) m).timeout = 5000) ∧
    (∀ m, (mkRequesterConfig none m).timeout = 5000) ∧
    (∀ t, (mkRequesterConfig t (some 0)).maxAttempts = 5) ∧
    (∀ t, (mkRequesterConfig t none).maxAttempts = 5) ∧
    (∀ t m, (mkRequesterConfig t m).timeout ≠ 0 ∧ (mkRequesterConfig t m).maxAttempts ≠ 0) := by
  refine ⟨fun m => rfl, fun m => rfl, fun t => rfl, fun t => rfl, fun t m => ⟨?_, ?_⟩⟩
  · cases t with
    | none => simp [mkRequesterConfig, jsNumOr]
    | some x =>
      by_cases hx : x = 0 <;> simp [mkRequesterConfig, jsNumOr, hx]
  · cases m with
    | none => simp [mkRequesterConfig, jsNumOr]
    | some x =>
      by_cases hx : x = 0 <;> simp [mkRequesterConfig, jsNumOr, hx]

end HttpRetryer

namespace HttpRetryer

/-- The per-row update abandonAttemptRecord performs, named for proofs. -/
def abandonUpd (uniqueKey : String) (attempt : Nat) (error : ErrVal) (r : Record) : Record :=
  if r.request_id = uniqueKey then
    Record.mk r.request_id attempt error r.payload true r.hostname
  else r

theorem abandonAttemptRecord_eq (uniqueKey : String) (attempt : Nat) (error : ErrVal)
    (store : Store) :
    abandonAttemptRecord uniqueKey attempt error store =
      (store.map (abandonUpd uniqueKey attempt error),
       [Event.abandonRec uniqueKey attempt error]) := rfl

theorem filter_key_nil (key : String) :
    ∀ l : Store, (∀ r ∈ l, r.request_id ≠ key) →
      l.filter (fun r => r.request_id == key) = [] := by
  intro l
  induction l with
  | nil => intro hs; rfl
  | cons r rest ih =>
    intro hs
    have h1 : (r.request_id == key) = false := by
      simpa using hs r (List.mem_cons_self _ _)
    simp only [List.filter_cons, h1, Bool.false_eq_true, if_neg]
    exact ih (fun x hx => hs x (List.mem_cons_of_mem _ hx))

theorem map_abandonUpd_no_key (key : String) (attempt : Nat) (error : ErrVal) :
    ∀ l : Store, (∀ r ∈ l, r.request_id ≠ key) →
      l.map (abandonUpd key attempt error) = l := by
  intro l
  induction l with
  | nil => intro hs; rfl
  | cons r rest ih =>
    intro hs
    have h1 : r.request_id ≠ key := hs r (List.mem_cons_self _ _)
    simp only [List.map_cons, abandonUpd, if_neg h1]
    rw [ih (fun x hx => hs x (List.mem_cons_of_mem _ hx))]

end HttpRetryer

namespace HttpRetryer

theorem makeHttpRequest_tail_all_fail (cfg : Config) (world : World)
    (genId payload key : String) (hkey : key ≠ "") :
    ∀ k attempt store, 2 ≤ attempt → attempt ≤ cfg.maxAttempts →
      cfg.maxAttempts - attempt ≤ k →
      (∀ n, attempt ≤ n → n ≤ cfg.maxAttempts → isFailure (sendRequest (world n)).2 = true) →
      ∃ sc, (makeHttpRequest cfg world genId payload store attempt (some key)).1 =
        store.map (abandonUpd key cfg.maxAttempts sc) := by
  intro k
  induction k with
  | zero =>
    intro a store h2 hle hk hfail
    have ha : a = cfg.maxAttempts := by omega
    subst ha
    have hf := hfail cfg.maxAttempts le_rfl le_rfl
    cases hres : (sendRequest (world cfg.maxAttempts)).2 with
    | ok r => rw [hres] at hf; simp [isFailure] at hf
    | error e =>
      have hge : ¬ cfg.maxAttempts < cfg.maxAttempts := by omega
      rw [makeHttpRequest_fail_final cfg world genId payload store cfg.maxAttempts
        (some key) e hres hge]
      have ha1 : ¬ cfg.maxAttempts = 1 := by omega
      refine ⟨statusCodeOf e, ?_⟩
      simp [truthy, hkey, ha1, abandonAttemptRecord_eq]
  | succ k ih =>
    intro a store h2 hle hk hfail
    by_cases hamax : a = cfg.maxAttempts
    · subst hamax
      have hf := hfail cfg.maxAttempts le_rfl le_rfl
      cases hres : (sendRequest (world cfg.maxAttempts)).2 with
      | ok r => rw [hres] at hf; simp [isFailure] at hf
      | error e =>
        have hge : ¬ cfg.maxAttempts < cfg.maxAttempts := by omega
        rw [makeHttpRequest_fail_final cfg world genId payload store cfg.maxAttempts
          (some key) e hres hge]
        have ha1 : ¬ cfg.maxAttempts = 1 := by omega
        refine ⟨statusCodeOf e, ?_⟩
        simp [truthy, hkey, ha1, abandonAttemptRecord_eq]
    · have hlt : a < cfg.maxAttempts := by omega
      have hf := hfail a le_rfl hle
      cases hres : (sendRequest (world a)).2 with
      | ok r => rw [hres] at hf; simp [isFailure] at hf
      | error e =>
        rw [makeHttpRequest_fail_retry cfg world genId payload store a (some key) e hres hlt]
        have ha1 : ¬ a = 1 := by omega
        obtain ⟨sc, hsc⟩ := ih (a + 1) store (by omega) (by omega) (by omega)
          (fun n hn1 hn2 => hfail n (by omega) hn2)
        refine ⟨sc, ?_⟩
        simpa [truthy, hkey, ha1] using hsc

end HttpRetryer

namespace HttpRetryer

/-- Claim C1: when dispatch fails on all maxAttempts consecutive
attempts, exactly one ledger record for the generated requestId is
present afterwards, with abandoned true and attempt_number equal to
maxAttempts (inserted already abandoned when maxAttempts is 1, otherwise
updated from the record inserted on the first failure). -/
theorem claim_C1_exhaustion (cfg : Config) (world : World) (genId payload : String)
    (store0 : Store) (hM : 1 ≤ cfg.maxAttempts) (hg : genId ≠ "")
    (hs : ∀ r ∈ store0, r.request_id ≠ genId)
    (hfail : ∀ n, 1 ≤ n → n ≤ cfg.maxAttempts → isFailure (sendRequest (world n)).2 = true) :
    ((makeHttpRequest cfg world genId payload store0 1 none).1.filter
        (fun r => r.request_id == genId)).map
      (fun r => (r.attempt_number, r.abandoned)) = [(cfg.maxAttempts, true)] := by
  have hf1 := hfail 1 le_rfl hM
  cases hres : (sendRequest (world 1)).2 with
  | ok r => rw [hres] at hf1; simp [isFailure] at hf1
  | error e =>
    by_cases hM1 : cfg.maxAttempts = 1
    · have hge : ¬ (1 : Nat) < cfg.maxAttempts := by omega
      rw [makeHttpRequest_fail_final cfg world genId payload store0 1 none e hres hge]
      rw [hM1]
      simp [truthy, insertAttemptRecord, List.filter_append,
        filter_key_nil genId store0 hs]
    · have hlt : (1 : Nat) < cfg.maxAttempts := by omega
      rw [makeHttpRequest_fail_retry cfg world genId payload store0 1 none e hres hlt]
      simp only [truthy, insertAttemptRecord, if_pos]
      obtain ⟨sc, hsc⟩ := makeHttpRequest_tail_all_fail cfg world genId payload genId hg
        cfg.maxAttempts 2
        (store0 ++ [Record.mk genId 1 (statusCodeOf e) payload false cfg.hostname])
        (by omega) (by omega) (by omega) (fun n hn1 hn2 => hfail n (by omega) hn2)
      simp only [Bool.false_eq_true, if_neg, ite_false, Option.getD]
      rw [hsc, List.map_append, map_abandonUpd_no_key genId cfg.maxAttempts sc store0 hs,
        List.filter_append, filter_key_nil genId store0 hs]
      simp [abandonUpd]

/-- Witness for claim C1: two attempts, both failing with status 503,
leave exactly one abandoned record at attempt_number 2. -/
theorem claim_C1_exhaustion_witness :
    ((makeHttpRequest (Config.mk 2 "H")
        (fun _ => [Except.error (JsError.mk (some 503) none)])
        "g1" "p" [] 1 none).1.filter (fun r => r.request_id == "g1")).map
      (fun r => (r.attempt_number, r.abandoned)) = [(2, true)] :=
  claim_C1_exhaustion (Config.mk 2 "H")
    (fun _ => [Except.error (JsError.mk (some 503) none)]) "g1" "p" []
    (by decide) (by decide) (fun r hr => absurd hr (List.not_mem_nil r))
    (fun n hn1 hn2 => rfl)

end HttpRetryer

namespace HttpRetryer

theorem filter_false_of_forall (p : Event → Bool) :
    ∀ l : List Event, (∀ ev ∈ l, p ev = false) → l.filter p = [] := by
  intro l
  induction l with
  | nil => intro h; rfl
  | cons ev rest ih =>
    intro h
    have h1 := h ev (List.mem_cons_self _ _)
    simp only [List.filter_cons, h1, Bool.false_eq_true, if_neg]
    exact ih (fun x hx => h x (List.mem_cons_of_mem _ hx))

theorem sendRequest_filter_insert (rs : List (Except JsError Resp)) :
    (sendRequest rs).1.filter isInsertEvt = [] := by
  apply filter_false_of_forall
  intro ev hev
  obtain ⟨j, rfl⟩ := sendRequestFrom_events rs 0 ev hev
  rfl

theorem sendRequest_filter_delete (rs : List (Except JsError Resp)) :
    (sendRequest rs).1.filter isDeleteEvt = [] := by
  apply filter_false_of_forall
  intro ev hev
  obtain ⟨j, rfl⟩ := sendRequestFrom_events rs 0 ev hev
  rfl

theorem makeHttpRequest_tail_succ (cfg : Config) (world : World)
    (genId payload key : String) (hkey : key ≠ "") (ksucc : Nat) (r : Option Resp)
    (hok : (sendRequest (world ksucc)).2 = Except.ok r) (hkM : ksucc ≤ cfg.maxAttempts) :
    ∀ d a store, 2 ≤ a → a ≤ ksucc → ksucc - a ≤ d →
      (∀ n, a ≤ n → n < ksucc → isFailure (sendRequest (world n)).2 = true) →
      (makeHttpRequest cfg world genId payload store a (some key)).1 =
        (deleteAttemptRecord key store).1 ∧
      (makeHttpRequest cfg world genId payload store a (some key)).2.1.filter isInsertEvt
        = [] ∧
      (makeHttpRequest cfg world genId payload store a (some key)).2.1.filter isDeleteEvt
        = [Event.deleteRec key] := by
  intro d
  induction d with
  | zero =>
    intro a store h2 hle hd hfail
    have ha : a = ksucc := by omega
    subst ha
    rw [makeHttpRequest_ok cfg world genId payload store a (some key) r hok]
    have hc : 1 < a ∧ truthy (some key) = true := by
      refine ⟨by omega, ?_⟩
      simp [truthy, hkey]
    rw [if_pos hc]
    have hdel : (deleteAttemptRecord ((some key).getD "") store) =
        deleteAttemptRecord key store := rfl
    rw [hdel]
    refine ⟨rfl, ?_, ?_⟩
    · simp only [List.cons_append, List.filter_cons, List.filter_append]
      rw [sendRequest_filter_insert (world a)]
      rw [filter_false_of_forall isInsertEvt (deleteAttemptRecord key store).2
        (fun ev hev => by rw [deleteAttemptRecord_events key store ev hev]; rfl)]
      rfl
    · simp only [List.cons_append, List.filter_cons, List.filter_append]
      rw [sendRequest_filter_delete (world a)]
      unfold deleteAttemptRecord
      rw [if_neg hkey]
      rfl
  | succ d ih =>
    intro a store h2 hle hd hfail
    by_cases hak : a = ksucc
    · subst hak
      rw [makeHttpRequest_ok cfg world genId payload store a (some key) r hok]
      have hc : 1 < a ∧ truthy (some key) = true := by
        refine ⟨by omega, ?_⟩
        simp [truthy, hkey]
      rw [if_pos hc]
      have hdel : (deleteAttemptRecord ((some key).getD "") store) =
          deleteAttemptRecord key store := rfl
      rw [hdel]
      refine ⟨rfl, ?_, ?_⟩
      · simp only [List.cons_append, List.filter_cons, List.filter_append]
        rw [sendRequest_filter_insert (world a)]
        rw [filter_false_of_forall isInsertEvt (deleteAttemptRecord key store).2
          (fun ev hev => by rw [deleteAttemptRecord_events key store ev hev]; rfl)]
        rfl
      · simp only [List.cons_append, List.filter_cons, List.filter_append]
        rw [sendRequest_filter_delete (world a)]
        unfold deleteAttemptRecord
        rw [if_neg hkey]
        rfl
    · have hlt : a < ksucc := by omega
      have hf := hfail a le_rfl hlt
      cases hres : (sendRequest (world a)).2 with
      | ok rr => rw [hres] at hf; simp [isFailure] at hf
      | error e =>
        rw [makeHttpRequest_fail_retry cfg world genId payload store a (some key) e hres
          (by omega)]
        have ha1 : ¬ a = 1 := by omega
        have hkeyv : (if truthy (some key) = true then (some key).getD "" else genId)
            = key := by
          simp [truthy, hkey]
        obtain ⟨ih1, ih2, ih3⟩ := ih (a + 1) store (by omega) (by omega) (by omega)
          (fun n hn1 hn2 => hfail n (by omega) hn2)
        simp only [hkeyv, ha1, ite_false, if_neg]
        refine ⟨ih1, ?_, ?_⟩
        · simp [isInsertEvt, List.filter_append, sendRequest_filter_insert (world a), ih2]
        · simp [isDeleteEvt, List.filter_append, sendRequest_filter_delete (world a), ih3]

end HttpRetryer

namespace HttpRetryer

/-- Claim C4: a delivery that fails on attempt 1 and succeeds on a later
attempt creates exactly one ledger record (inserted on the first failure
with attemptNumber 1 and abandoned false) and deletes it after the
success, so no record for its requestId remains afterwards. -/
theorem claim_C4_fail_then_succeed (cfg : Config) (world : World) (genId payload : String)
    (store0 : Store) (ksucc : Nat) (hk2 : 2 ≤ ksucc) (hkM : ksucc ≤ cfg.maxAttempts)
    (hg : genId ≠ "") (r : Option Resp)
    (hfail : ∀ n, 1 ≤ n → n < ksucc → isFailure (sendRequest (world n)).2 = true)
    (hok : (sendRequest (world ksucc)).2 = Except.ok r) :
    (makeHttpRequest cfg world genId payload store0 1 none).1.filter
        (fun rec => rec.request_id == genId) = [] ∧
    (∃ v, (makeHttpRequest cfg world genId payload store0 1 none).2.1.filter isInsertEvt
        = [Event.insertRec genId 1 v false]) ∧
    (makeHttpRequest cfg world genId payload store0 1 none).2.1.filter isDeleteEvt
      = [Event.deleteRec genId] := by
  have hf1 := hfail 1 le_rfl (by omega)
  cases hres : (sendRequest (world 1)).2 with
  | ok rr => rw [hres] at hf1; simp [isFailure] at hf1
  | error e =>
    have hlt : (1 : Nat) < cfg.maxAttempts := by omega
    rw [makeHttpRequest_fail_retry cfg world genId payload store0 1 none e hres hlt]
    obtain ⟨ih1, ih2, ih3⟩ := makeHttpRequest_tail_succ cfg world genId payload genId hg
      ksucc r hok hkM ksucc 2
      (store0 ++ [Record.mk genId 1 (statusCodeOf e) payload false cfg.hostname])
      (by omega) (by omega) (by omega) (fun n hn1 hn2 => hfail n (by omega) hn2)
    simp only [truthy, Bool.false_eq_true, if_neg, ite_false, Option.getD,
      insertAttemptRecord, if_pos]
    refine ⟨?_, ?_, ?_⟩
    · rw [ih1]
      unfold deleteAttemptRecord
      rw [if_neg hg]
      apply filter_key_nil
      intro rec hrec
      have hmem := List.mem_filter.mp hrec
      simpa using hmem.2
    · refine ⟨statusCodeOf e, ?_⟩
      simp [isInsertEvt, List.filter_append, sendRequest_filter_insert (world 1), ih2]
    · simp [isDeleteEvt, List.filter_append, sendRequest_filter_delete (world 1), ih3]

/-- Witness for claim C4: fail once with status 503, succeed on attempt
2: one record inserted, one deleted, none left. -/
theorem claim_C4_fail_then_succeed_witness :
    (makeHttpRequest (Config.mk 3 "H")
        (fun n => if n = 1 then [Except.error (JsError.mk (some 503) none)]
                  else [Except.ok (Resp.mk 200)])
        "g2" "p" [] 1 none).1.filter (fun rec => rec.request_id == "g2") = [] ∧
    (∃ v, (makeHttpRequest (Config.mk 3 "H")
        (fun n => if n = 1 then [Except.error (JsError.mk (some 503) none)]
                  else [Except.ok (Resp.mk 200)])
        "g2" "p" [] 1 none).2.1.filter isInsertEvt = [Event.insertRec "g2" 1 v false]) ∧
    (makeHttpRequest (Config.mk 3 "H")
        (fun n => if n = 1 then [Except.error (JsError.mk (some 503) none)]
                  else [Except.ok (Resp.mk 200)])
        "g2" "p" [] 1 none).2.1.filter isDeleteEvt = [Event.deleteRec "g2"] :=
  claim_C4_fail_then_succeed (Config.mk 3 "H")
    (fun n => if n = 1 then [Except.error (JsError.mk (some 503) none)]
              else [Except.ok (Resp.mk 200)])
    "g2" "p" [] 2 (by decide) (by decide) (by decide) (some (Resp.mk 200))
    (fun n hn1 hn2 => by
      have hn : n = 1 := by omega
      subst hn
      rfl)
    rfl

end HttpRetryer

namespace HttpRetryer

/-- Claim C2: for every attempt number n in [1, maxAttempts-1] whose
dispatch fails, the delay inserted between attempt n and attempt n+1 is
exactly 2^n * 1000 milliseconds, deterministically, with no other sleep
in between, in both the deliver path and the resume path. -/
theorem claim_C2_backoff (cfg : Config) (world : World) (genId payload rid : String)
    (store : Store) (uniqueKey : Option String) (n : Nat) (e : JsError)
    (hn1 : 1 ≤ n) (hnM : n < cfg.maxAttempts)
    (hf : (sendRequest (world n)).2 = Except.error e) :
    (∃ mid rest, (makeHttpRequest cfg world genId payload store n uniqueKey).2.1 =
        Event.attemptDispatch n ::
          (mid ++ Event.sleep (2 ^ n * 1000) :: Event.attemptDispatch (n + 1) :: rest) ∧
        ∀ ms, Event.sleep ms ∉ mid) ∧
    (∃ rest2, (retryHttpRequest cfg world rid payload store n).2.1 =
        Event.attemptDispatch n ::
          ((sendRequest (world n)).1 ++
            Event.sleep (2 ^ n * 1000) :: Event.attemptDispatch (n + 1) :: rest2) ∧
        ∀ ms, Event.sleep ms ∉ (sendRequest (world n)).1) := by
  constructor
  · rw [makeHttpRequest_fail_retry cfg world genId payload store n uniqueKey e hf hnM]
    obtain ⟨t, ht⟩ := makeHttpRequest_trace_head cfg world genId payload
      (if n = 1 then insertAttemptRecord cfg
          (if truthy uniqueKey = true then uniqueKey.getD "" else genId) n
          (statusCodeOf e) payload false store
        else (store, [])).1 (n + 1)
      (some (if truthy uniqueKey = true then uniqueKey.getD "" else genId))
    refine ⟨(sendRequest (world n)).1 ++
      (if n = 1 then insertAttemptRecord cfg
          (if truthy uniqueKey = true then uniqueKey.getD "" else genId) n
          (statusCodeOf e) payload false store
        else (store, [])).2, t, ?_, ?_⟩
    · simp only [ht]
      simp
    · intro ms hms
      rcases List.mem_append.mp hms with h1 | h1
      · exact sendRequest_no_sleep (world n) ms h1
      · by_cases hn : n = 1 <;> simp [hn, insertAttemptRecord] at h1
  · rw [retryHttpRequest_fail_retry cfg world rid payload store n e hf hnM]
    obtain ⟨t, ht⟩ := retryHttpRequest_trace_head cfg world rid payload store (n + 1)
    refine ⟨t, ?_, fun ms hms => sendRequest_no_sleep (world n) ms hms⟩
    simp only [ht]
    simp

/-- Witness for claim C2, at attempt 1 with maxAttempts 2 and a single
always-failing endpoint. -/
theorem claim_C2_backoff_witness :
    (∃ mid rest, (makeHttpRequest (Config.mk 2 "H")
        (fun _ => [Except.error (JsError.mk none none)]) "g" "p" [] 1 none).2.1 =
        Event.attemptDispatch 1 ::
          (mid ++ Event.sleep (2 ^ 1 * 1000) :: Event.attemptDispatch 2 :: rest) ∧
        ∀ ms, Event.sleep ms ∉ mid) ∧
    (∃ rest2, (retryHttpRequest (Config.mk 2 "H")
        (fun _ => [Except.error (JsError.mk none none)]) "r" "p" [] 1).2.1 =
        Event.attemptDispatch 1 ::
          ((sendRequest ((fun (_ : Nat) => [Except.error (JsError.mk none none)]) 1)).1 ++
            Event.sleep (2 ^ 1 * 1000) :: Event.attemptDispatch 2 :: rest2) ∧
        ∀ ms, Event.sleep ms ∉
          (sendRequest ((fun (_ : Nat) => [Except.error (JsError.mk none none)]) 1)).1) :=
  claim_C2_backoff (Config.mk 2 "H") (fun _ => [Except.error (JsError.mk none none)])
    "g" "p" "r" [] none 1 (JsError.mk none none) (by decide) (by decide) rfl

/-- Claim C7: resuming a stored pending record with attempt_number 2
redispatches as attempt 2 and, when that fails, continues the
exponential ladder with a 2^2 * 1000 ms delay before attempt 3; it
never dispatches an attempt labeled 1. -/
theorem claim_C7_resume_continues (cfg : Config) (world : World) (rid payload : String)
    (store : Store) (e : JsError) (hM : 2 < cfg.maxAttempts)
    (hf : (sendRequest (world 2)).2 = Except.error e) :
    (∀ ev ∈ (retryHttpRequest cfg world rid payload store 2).2.1,
        ev ≠ Event.attemptDispatch 1) ∧
    (∃ rest, (retryHttpRequest cfg world rid payload store 2).2.1 =
        Event.attemptDispatch 2 ::
          ((sendRequest (world 2)).1 ++
            Event.sleep (2 ^ 2 * 1000) :: Event.attemptDispatch 3 :: rest)) := by
  constructor
  · intro ev hev hcontra
    subst hcontra
    have h := retryHttpRequest_events cfg world rid payload cfg.maxAttempts 2 store
      (by omega) _ hev
    simp only [retryEvtOk] at h
    omega
  · rw [retryHttpRequest_fail_retry cfg world rid payload store 2 e hf (by omega)]
    obtain ⟨t, ht⟩ := retryHttpRequest_trace_head cfg world rid payload store 3
    refine ⟨t, ?_⟩
    simp only [show (2 : Nat) + 1 = 3 from rfl, ht]
    simp

/-- Witness for claim C7, with maxAttempts 3 and an always-failing
endpoint. -/
theorem claim_C7_resume_continues_witness :
    (∀ ev ∈ (retryHttpRequest (Config.mk 3 "H")
        (fun _ => [Except.error (JsError.mk (some 500) none)]) "r" "p" [] 2).2.1,
        ev ≠ Event.attemptDispatch 1) ∧
    (∃ rest, (retryHttpRequest (Config.mk 3 "H")
        (fun _ => [Except.error (JsError.mk (some 500) none)]) "r" "p" [] 2).2.1 =
        Event.attemptDispatch 2 ::
          ((sendRequest ((fun (_ : Nat) => [Except.error (JsError.mk (some 500) none)]) 2)).1 ++
            Event.sleep (2 ^ 2 * 1000) :: Event.attemptDispatch 3 :: rest)) :=
  claim_C7_resume_continues (Config.mk 3 "H")
    (fun _ => [Except.error (JsError.mk (some 500) none)]) "r" "p" []
    (JsError.mk (some 500) none) (by decide) rfl

end HttpRetryer

namespace HttpRetryer

/-- Claim C6, evaluated at a failing input: resuming with
attempt = maxAttempts = 2 while every endpoint fails does NOT mark the
record abandoned (the store is returned unchanged, still pending) and
raises the ReferenceError coming from the undefined identifier recordId
on line 244, contradicting the claim that resume reaches the same
Abandoned terminal state without raising. -/
theorem claim_C6_resume_exhaustion_bug :
    retryHttpRequest (Config.mk 2 "H")
        (fun _ => [Except.error (JsError.mk (some 503) none)]) "r1" "p"
        [Record.mk "r1" 2 ErrVal.null "p" false "H"] 2 =
      ([Record.mk "r1" 2 ErrVal.null "p" false "H"],
       [Event.attemptDispatch 2, Event.httpCall 0], some Thrown.refErrorRecordId) := by
  rw [retryHttpRequest_fail_final (Config.mk 2 "H")
    (fun _ => [Except.error (JsError.mk (some 503) none)]) "r1" "p"
    [Record.mk "r1" 2 ErrVal.null "p" false "H"] 2 (JsError.mk (some 503) none) rfl
    (by decide)]
  rfl

theorem processRows_cons_trace (cfg : Config) (worlds : Nat → World) (i : Nat)
    (row : Record) (rest : List Record) (s : Store) :
    ∃ t, (processRows cfg worlds i (row :: rest) s).2 =
      Event.resumeCall row.request_id row.attempt_number :: t := by
  unfold processRows
  dsimp only
  cases hx : (retryHttpRequest cfg (worlds i) row.request_id row.payload s
      row.attempt_number).2.2 with
  | none => exact ⟨_, rfl⟩
  | some th => exact ⟨_, rfl⟩

/-- Counterexample for claim C5: the recovery scan issues
SELECT * with no filter on abandoned, so a record already flagged
abandoned=true IS resubmitted through the resume flow, contradicting the
claim that only pending (abandoned=false) records are resubmitted. -/
theorem claim_C5_cex :
    Event.resumeCall "a1" 2 ∈
      (checkPendingRequests (Config.mk 2 "H") (fun _ _ => [Except.ok (Resp.mk 200)])
        [Record.mk "a1" 2 ErrVal.null "p" true "H"]).2 := by
  obtain ⟨t, ht⟩ := processRows_cons_trace (Config.mk 2 "H")
    (fun _ _ => [Except.ok (Resp.mk 200)]) 0
    (Record.mk "a1" 2 ErrVal.null "p" true "H") []
    [Record.mk "a1" 2 ErrVal.null "p" true "H"]
  unfold checkPendingRequests
  rw [ht]
  exact List.mem_cons_self _ _

theorem retryHttpRequest_filter_resume (cfg : Config) (world : World)
    (rid payload : String) (store : Store) (attempt : Nat) :
    (retryHttpRequest cfg world rid payload store attempt).2.1.filter isResumeEvt = [] := by
  apply filter_false_of_forall
  intro ev hev
  have h := retryHttpRequest_events cfg world rid payload cfg.maxAttempts attempt store
    (by omega) ev hev
  cases ev <;> simp [isResumeEvt]
  exact absurd h (by simp [retryEvtOk])

theorem processRows_resume_trace (cfg : Config) (worlds : Nat → World) :
    ∀ rows : List Record, ∀ i : Nat, ∀ s : Store,
      (∀ j row s2, rows.get? j = some row →
        (retryHttpRequest cfg (worlds (i + j)) row.request_id row.payload s2
          row.attempt_number).2.2 = none) →
      (processRows cfg worlds i rows s).2.filter isResumeEvt =
        rows.map (fun r => Event.resumeCall r.request_id r.attempt_number) := by
  intro rows
  induction rows with
  | nil => intro i s h; rfl
  | cons row rest ih =>
    intro i s h
    unfold processRows
    dsimp only
    have hth := h 0 row s (by simp)
    rw [Nat.add_zero] at hth
    rw [hth]
    simp only [List.filter_cons, List.filter_append, isResumeEvt, if_pos]
    have hrest := ih (i + 1)
      (processRows cfg worlds (i + 1) rest
        (retryHttpRequest cfg (worlds i) row.request_id row.payload s
          row.attempt_number).1).1
    rw [retryHttpRequest_filter_resume cfg (worlds i) row.request_id row.payload s
      row.attempt_number]
    rw [ih (i + 1) _ (fun j r2 s2 hj => by
      have hidx := h (j + 1) r2 s2 (by simpa using hj)
      have heq : i + (j + 1) = i + 1 + j := by omega
      rw [heq] at hidx
      exact hidx)]
    simp

/-- Claim C5 (amended): the recovery scan, when invoked, resubmits
every record found in the store (pending or abandoned alike), in order,
each exactly once, provided no resume raises; the startup invocation
itself is commented out in the constructor. -/
theorem claim_C5_amended (cfg : Config) (worlds : Nat → World) (store : Store)
    (h : ∀ j row s2, store.get? j = some row →
      (retryHttpRequest cfg (worlds j) row.request_id row.payload s2
        row.attempt_number).2.2 = none) :
    (checkPendingRequests cfg worlds store).2.filter isResumeEvt =
      store.map (fun r => Event.resumeCall r.request_id r.attempt_number) := by
  unfold checkPendingRequests
  exact processRows_resume_trace cfg worlds store 0 store
    (fun j row s2 hj => by
      have hidx := h j row s2 hj
      simpa using hidx)

/-- Witness for claim C5 (amended): one pending record, resume succeeds,
exactly one resume invocation recorded. -/
theorem claim_C5_amended_witness :
    (checkPendingRequests (Config.mk 2 "H") (fun _ _ => [Except.ok (Resp.mk 200)])
        [Record.mk "b1" 2 ErrVal.null "p" false "H"]).2.filter isResumeEvt =
      [Event.resumeCall "b1" 2] := by
  have h := claim_C5_amended (Config.mk 2 "H") (fun _ _ => [Except.ok (Resp.mk 200)])
    [Record.mk "b1" 2 ErrVal.null "p" false "H"]
    (fun j row s2 hj => by
      cases j with
      | zero =>
        simp only [List.get?_cons_zero, Option.some.injEq] at hj
        subst hj
        show (retryHttpRequest (Config.mk 2 "H") (fun _ => [Except.ok (Resp.mk 200)])
          "b1" "p" s2 2).2.2 = none
        rw [retryHttpRequest_ok (Config.mk 2 "H") (fun _ => [Except.ok (Resp.mk 200)])
          "b1" "p" s2 2 (some (Resp.mk 200)) rfl]
      | succ j => simp at hj)
  simpa using h

end HttpRetryer

namespace HttpRetryer

/-- Witness for claim C8 at a concrete failing world. -/
theorem claim_C8_never_raises_witness :
    (makeHttpRequest (Config.mk 1 "H") (fun _ => [Except.error (JsError.mk none none)])
        "g" "p" [] 1 none).2.2 = none ∧
    (startRequest (Config.mk 1 "H") (fun _ => [Except.error (JsError.mk none none)])
        "g" "p" []).2.2 = none :=
  claim_C8_never_raises (Config.mk 1 "H")
    (fun _ => [Except.error (JsError.mk none none)]) "g" "p" []

/-- Witness for claim C10 at concrete configurations. -/
theorem claim_C10_defaults_witness :
    (mkRequesterConfig (some 0) (some 7)).timeout = 5000 ∧
    (mkRequesterConfig (some 9) (some 0)).maxAttempts = 5 ∧
    (mkRequesterConfig (some 9) (some 7)).timeout ≠ 0 :=
  ⟨claim_C10_defaults.1 (some 7), claim_C10_defaults.2.2.1 (some 9),
   (claim_C10_defaults.2.2.2.2 (some 9) (some 7)).1⟩

end HttpRetryer
